import Mathlib

/-!
Verification development for the traefik-unifidns plugin.

The Go sources are shallowly embedded: the decision logic of
`updateDNSRecord` (unifi_api.go), the session/request flow of the UniFi
client, the rule parser `extractHostname` and router filter of
`GetRouters` (traefik client), and the reconciliation pass `updateDNS`,
device router `findMatchingClient`, local-address lookup `getLocalIP`
and constructor `New` of the plugin core.  External collaborators
(the UniFi device API, the Go standard library's duration parser and
regexp compiler, the host network stack, the Traefik API) are passed in
as explicit oracles / result values.
-/

namespace TraefikUnifiDNS

/-- `DNSEntry` mirrors the Go struct in unifi_api.go: `key` (hostname),
`value` (IP), `_id` (opaque remote identifier). -/
structure DNSEntry where
  key : String
  value : String
  id : String
  deriving Repr, DecidableEq

/-- The JSON body of a static-dns write call built by `updateDNSRecord`:
`key`, `record_type`, `value`, `enabled`, and `_id` (only on update). -/
structure DNSPayload where
  key : String
  recordType : String
  value : String
  enabled : Bool
  idField : Option String
  deriving Repr, DecidableEq

/-- The write decision taken by `updateDNSRecord` after inspecting the
current entries: no write at all, a PUT addressed by an entry id, or a
POST creating a new record. -/
inductive UpsertAction where
  | noop : UpsertAction
  | update (id : String) (payload : DNSPayload) : UpsertAction
  | create (payload : DNSPayload) : UpsertAction
  deriving Repr, DecidableEq

/-- The find loop of `updateDNSRecord` (unifi_api.go lines 170-181):
the first entry whose `key` equals the hostname decides. -/
def findExisting (hostname : String) : List DNSEntry → Option DNSEntry
  | [] => none
  | e :: rest => if e.key = hostname then some e else findExisting hostname rest

/-- The pure decision core of `updateDNSRecord` (unifi_api.go lines
160-236): equal IP on the first matching entry means no write; a
differing IP means a PUT addressed by that entry's `_id` with the full
payload; no matching entry means a POST. -/
def decideUpsert (hostname ip : String) (entries : List DNSEntry) : UpsertAction :=
  match findExisting hostname entries with
  | some e =>
      if e.value = ip then UpsertAction.noop
      else UpsertAction.update e.id ⟨hostname, "A", ip, true, some e.id⟩
  | none => UpsertAction.create ⟨hostname, "A", ip, true, none⟩

/-- Number of write calls (PUT or POST) an action issues. -/
def writeCount : UpsertAction → Nat
  | UpsertAction.noop => 0
  | UpsertAction.update _ _ => 1
  | UpsertAction.create _ => 1

/-- Number of create (POST) calls an action issues. -/
def createCount : UpsertAction → Nat
  | UpsertAction.create _ => 1
  | _ => 0

/-- Number of update (PUT) calls an action issues. -/
def updateCount : UpsertAction → Nat
  | UpsertAction.update _ _ => 1
  | _ => 0

/-- Modelled from the spec: the external DNS-managing device API
(spec section 6 and section 4.3), which is not part of this repository.
An update addressed by an opaque id replaces the hostname and value of
every record carrying that id; a create appends a record whose id is
assigned by the device. -/
def applyAction (freshId : String) (entries : List DNSEntry) : UpsertAction → List DNSEntry
  | UpsertAction.noop => entries
  | UpsertAction.update i p =>
      entries.map (fun e => if e.id = i then ⟨p.key, p.value, e.id⟩ else e)
  | UpsertAction.create p => entries ++ [⟨p.key, p.value, freshId⟩]


/-! ### Session and request flow of the UniFi client (unifi_api.go) -/

/-- A request the UniFi client can issue: credential login, the
static-dns list GET, a PUT addressed by an entry id, or a POST. -/
inductive ApiRequest where
  | loginReq : ApiRequest
  | listDNS : ApiRequest
  | putDNS (id : String) (payload : DNSPayload) : ApiRequest
  | postDNS (payload : DNSPayload) : ApiRequest
  deriving Repr, DecidableEq

/-- What the device answers: an HTTP status, the `X-Csrf-Token` header
(relevant to login responses) and the decoded entry list (relevant to
list responses). -/
structure ApiResponse where
  status : Nat
  csrf : String
  entries : List DNSEntry
  deriving Repr, DecidableEq

/-- The device side of one exchange, abstracted as a response oracle. -/
def Oracle : Type := ApiRequest → ApiResponse

/-- `login()` (unifi_api.go lines 63-112): POST credentials; a non-200
status is an error, a 200 without the `X-Csrf-Token` header is an error
(fail closed); on success the token is stored.  Result: updated token,
requests issued, outcome. -/
def login (o : Oracle) (tok : String) : String × List ApiRequest × Except String Unit :=
  let r := o ApiRequest.loginReq
  if r.status ≠ 200 then (tok, [ApiRequest.loginReq], Except.error "login failed")
  else if r.csrf = "" then (tok, [ApiRequest.loginReq], Except.error "no CSRF token received")
  else (r.csrf, [ApiRequest.loginReq], Except.ok ())

/-- The `if c.csrfToken == "" { login }` prologue used by
`GetStaticDNSEntries` (lines 118-122) and `updateDNSRecord` (184-188). -/
def ensureAuth (o : Oracle) (tok : String) : String × List ApiRequest × Except String Unit :=
  if tok = "" then login o tok else (tok, [], Except.ok ())

/-- `GetStaticDNSEntries` (unifi_api.go lines 114-158): lazy login when
the token is empty, then one GET; any non-200 status is an error — the
token is left as it is and nothing is retried. -/
def getStaticDNSEntries (o : Oracle) (tok : String) :
    String × List ApiRequest × Except String (List DNSEntry) :=
  match ensureAuth o tok with
  | (tok1, tr, Except.error e) => (tok1, tr, Except.error e)
  | (tok1, tr, Except.ok ()) =>
      let r := o ApiRequest.listDNS
      if r.status ≠ 200 then
        (tok1, tr ++ [ApiRequest.listDNS], Except.error "failed to get DNS entries")
      else
        (tok1, tr ++ [ApiRequest.listDNS], Except.ok r.entries)

/-- The write half of `updateDNSRecord` (lines 183-255): the lazy login
check, then the single PUT/POST; a non-200 status is an error with no
retry and no token change. -/
def sendWrite (o : Oracle) (tok : String) (done : List ApiRequest) (req : ApiRequest) :
    String × List ApiRequest × Except String Unit :=
  match ensureAuth o tok with
  | (tok1, tr, Except.error _) =>
      (tok1, done ++ tr, Except.error "failed to login before updating DNS")
  | (tok1, tr, Except.ok ()) =>
      let r := o req
      if r.status ≠ 200 then
        (tok1, done ++ tr ++ [req], Except.error "DNS operation failed")
      else
        (tok1, done ++ tr ++ [req], Except.ok ())

/-- `updateDNSRecord` (unifi_api.go lines 160-263) over the oracle:
list, decide, and issue at most one write. -/
def updateDNSRecord (o : Oracle) (tok : String) (hostname ip : String) :
    String × List ApiRequest × Except String Unit :=
  match getStaticDNSEntries o tok with
  | (tok1, tr, Except.error _) =>
      (tok1, tr, Except.error "failed to get DNS entries before update")
  | (tok1, tr, Except.ok entries) =>
      match findExisting hostname entries with
      | some e =>
          if e.value = ip then (tok1, tr, Except.ok ())
          else sendWrite o tok1 tr (ApiRequest.putDNS e.id ⟨hostname, "A", ip, true, some e.id⟩)
      | none => sendWrite o tok1 tr (ApiRequest.postDNS ⟨hostname, "A", ip, true, none⟩)

/-! ### Rule parser (traefik client, `extractHostname`) -/

/-- The backtick delimiter (U+0060). -/
def bq : Char := Char.ofNat 96

/-- The single-quote delimiter (U+0027). -/
def sq : Char := Char.ofNat 39

/-- The double-quote delimiter (U+0022). -/
def dq : Char := Char.ofNat 34

/-- Whitespace as trimmed by `strings.TrimSpace` (ASCII range). -/
def isSpaceChar (c : Char) : Bool :=
  c == ' ' || c == Char.ofNat 9 || c == Char.ofNat 10 || c == Char.ofNat 11 ||
    c == Char.ofNat 12 || c == Char.ofNat 13

/-- `strings.TrimSpace` over the character list. -/
def trimSpace (l : List Char) : List Char :=
  ((l.dropWhile isSpaceChar).reverse.dropWhile isSpaceChar).reverse

/-- Split a character list at the first occurrence of `c`.  The Go
regex fragment `([^c]+)c` can only consume exactly the characters
before the first `c`. -/
def splitAtChar (c : Char) : List Char → Option (List Char × List Char)
  | [] => none
  | a :: rest =>
      if a = c then some ([], rest)
      else
        match splitAtChar c rest with
        | some (body, after) => some (a :: body, after)
        | none => none

/-- One anchored attempt of the Go regex `Host\(d([^d]+)d\)` at the
head of the list, `d` being the delimiter: the literal `Host(`, the
opening delimiter, a nonempty delimiter-free body, the closing
delimiter, then `)`. -/
def tryHostAt (d : Char) (l : List Char) : Option (List Char) :=
  match l with
  | c1 :: c2 :: c3 :: c4 :: c5 :: c6 :: rest =>
      if c1 = 'H' ∧ c2 = 'o' ∧ c3 = 's' ∧ c4 = 't' ∧ c5 = '(' ∧ c6 = d then
        match splitAtChar d rest with
        | some (body, a :: _) => if a = ')' ∧ body ≠ [] then some body else none
        | _ => none
      else none
  | _ => none

/-- `FindStringSubmatch` semantics: try the anchored match at every
start position, leftmost position first. -/
def scanHost (d : Char) : List Char → Option (List Char)
  | [] => none
  | c :: rest =>
      match tryHostAt d (c :: rest) with
      | some body => some body
      | none => scanHost d rest

/-- `extractHostname` (traefik client, lines 145-172): try the
backtick, the single-quote, then the double-quote form of the
`Host(...)` predicate; return the whitespace-trimmed body of the first
form that matches anywhere in the rule; otherwise the empty string. -/
def extractHostname (rule : String) : String :=
  match scanHost bq rule.data with
  | some body => String.mk (trimSpace body)
  | none =>
      match scanHost sq rule.data with
      | some body => String.mk (trimSpace body)
      | none =>
          match scanHost dq rule.data with
          | some body => String.mk (trimSpace body)
          | none => ""

/-! ### Router filter (traefik client, `GetRouters`) -/

/-- A Traefik router as decoded by the traefik client. -/
structure TraefikRouter where
  rule : String
  middlewares : List String
  service : String
  name : String
  deriving Repr, DecidableEq

/-- Does `needle` occur at the head of `hay`? -/
def leadMatch : List Char → List Char → Bool
  | [], _ => true
  | _ :: _, [] => false
  | a :: as, b :: bs => a = b && leadMatch as bs

/-- `strings.Contains` over character lists: `needle` occurs at some
position of `hay`. -/
def containsSub (hay needle : List Char) : Bool :=
  match hay with
  | [] => leadMatch needle []
  | _ :: rest => leadMatch needle hay || containsSub rest needle

/-- `strings.Contains`. -/
def stringContains (hay needle : String) : Bool :=
  containsSub hay.data needle.data

/-- The inner middleware loop of `GetRouters` (lines 127-137): a router
is kept when some middleware name contains the marker as a substring. -/
def routerHasMarker (r : TraefikRouter) : Bool :=
  r.middlewares.any (fun m => stringContains m "traefikunifidns")

/-- The filtering stage of `GetRouters` (lines 124-141). -/
def filterRouters (rs : List TraefikRouter) : List TraefikRouter :=
  rs.filter routerHasMarker

/-! ### Device router, local address, reconciliation pass (plugin core) -/

/-- One entry of the `devicePatterns`/`unifiClients` maps: a synthetic
client id and the compiled pattern's match function
(`regexp.MatchString`, unanchored containment semantics). -/
def DeviceEntry : Type := String × (String → Bool)

/-- `findMatchingClient` (plugin core, lines 132-141): iterate over the
device map and return the first device whose pattern matches.  Go map
iteration order is unspecified and re-randomized on every `range`, so
the order of `devs` is an explicit parameter: one call corresponds to
one ordering of the same map contents. -/
def findMatchingClient (devs : List DeviceEntry) (hostname : String) : Option String :=
  match devs with
  | [] => none
  | (cid, pat) :: rest =>
      if pat hostname then some cid else findMatchingClient rest hostname

/-- One host interface address as inspected by `getLocalIP`: whether
the address is an `*net.IPNet`, whether it is loopback, whether it has
an IPv4 form, and its rendered string. -/
structure Addr where
  isIPNet : Bool
  loopback : Bool
  ipv4 : Bool
  rendered : String
  deriving Repr, DecidableEq

/-- Does `getLocalIP` accept this address? -/
def usableAddr (a : Addr) : Bool :=
  a.isIPNet && !a.loopback && a.ipv4

/-- `getLocalIP` (plugin core, lines 199-214): the first interface
address that is an IPNet, non-loopback and IPv4 wins; otherwise a
descriptive error. -/
def getLocalIP : List Addr → Except String String
  | [] => Except.error "no suitable IP address found"
  | a :: rest => if usableAddr a then Except.ok a.rendered else getLocalIP rest

/-- The observable fate of one route inside a pass. -/
inductive RouteOutcome where
  | emptyRule : RouteOutcome
  | noHostname : RouteOutcome
  | noDevice (hostname : String) : RouteOutcome
  | upsertFailed (hostname clientId : String) : RouteOutcome
  | upserted (hostname clientId : String) : RouteOutcome
  deriving Repr, DecidableEq

/-- The per-route body of the `updateDNS` loop (lines 166-192): empty
rule, empty extracted hostname and missing device match are skips; an
upsert failure is logged; every branch continues to the next route.
`upsertOk` stands for the outcome of the device-side
`updateDNSRecord` network call. -/
def processRoute (devs : List DeviceEntry) (upsertOk : String → String → String → Bool)
    (localIP : String) (r : TraefikRouter) : RouteOutcome :=
  if r.rule = "" then RouteOutcome.emptyRule
  else
    let hostname := extractHostname r.rule
    if hostname = "" then RouteOutcome.noHostname
    else
      match findMatchingClient devs hostname with
      | none => RouteOutcome.noDevice hostname
      | some cid =>
          if upsertOk cid hostname localIP then RouteOutcome.upserted hostname cid
          else RouteOutcome.upsertFailed hostname cid

/-- `updateDNS` (plugin core, lines 143-197): obtain the local IP
(abort on failure), obtain the router list (abort on failure), then
process every route in order; per-route outcomes are logged only and
the pass returns success. -/
def updateDNS (devs : List DeviceEntry) (upsertOk : String → String → String → Bool)
    (addrs : List Addr) (routersRes : Except String (List TraefikRouter)) :
    Except String Unit × List RouteOutcome :=
  match getLocalIP addrs with
  | Except.error e => (Except.error ("failed to get local IP: " ++ e), [])
  | Except.ok localIP =>
      match routersRes with
      | Except.error e => (Except.error ("failed to get Traefik routers: " ++ e), [])
      | Except.ok routers => (Except.ok (), routers.map (processRoute devs upsertOk localIP))

/-! ### Constructor (plugin core, `New`) -/

/-- A device entry of the plugin configuration. -/
structure UnifiDeviceConfig where
  host : String
  username : String
  password : String
  pattern : String
  insecureSkipVerifyTLS : Bool
  deriving Repr, DecidableEq

/-- The plugin configuration. -/
structure Config where
  devices : List UnifiDeviceConfig
  updateInterval : String
  traefikAPIURL : String
  insecureSkipVerifyTLS : Bool
  deriving Repr, DecidableEq

/-- The validation loop of `New` (lines 66-85), with the Go regexp
compiler abstracted as `compile` (`none` = compile error): reject an
empty pattern, reject a non-compiling pattern, otherwise collect the
`device-i` entries in order. -/
def buildDevices (compile : String → Option (String → Bool)) :
    List UnifiDeviceConfig → Nat → Except String (List DeviceEntry)
  | [], _ => Except.ok []
  | d :: rest, i =>
      if d.pattern = "" then
        Except.error ("device " ++ toString i ++ " is missing a pattern")
      else
        match compile d.pattern with
        | none => Except.error ("invalid pattern for device " ++ toString i)
        | some re =>
            match buildDevices compile rest (i + 1) with
            | Except.error e => Except.error e
            | Except.ok l => Except.ok (("device-" ++ toString i, re) :: l)

/-- `New` (plugin core, lines 55-107), with `time.ParseDuration`
abstracted as `parseDuration` and the initial pass's external inputs
passed in.  Validation failures return an error; after validation the
initial `updateDNS` runs and its error is only recorded as a logged
message — `New` still returns the handler. -/
def New (parseDuration : String → Option Nat) (compile : String → Option (String → Bool))
    (cfg : Config) (upsertOk : String → String → String → Bool)
    (addrs : List Addr) (routersRes : Except String (List TraefikRouter)) :
    Except String (List DeviceEntry × Option String) :=
  match parseDuration cfg.updateInterval with
  | none => Except.error "invalid update interval"
  | some _ =>
      match buildDevices compile cfg.devices 0 with
      | Except.error e => Except.error e
      | Except.ok devs =>
          match (updateDNS devs upsertOk addrs routersRes).1 with
          | Except.error e => Except.ok (devs, some e)
          | Except.ok () => Except.ok (devs, none)

/-! ### Concrete instances used in counterexamples and witnesses -/

/-- A device that answers any login with a fresh token but any other
request with 401. -/
def staleTokenOracle : Oracle := fun r =>
  match r with
  | ApiRequest.loginReq => ⟨200, "fresh-token", []⟩
  | _ => ⟨401, "", []⟩

/-- Two devices whose patterns both match every hostname, in map
iteration order device-0 first. -/
def overlapDevices : List DeviceEntry :=
  [("device-0", fun _ => true), ("device-1", fun _ => true)]

/-- The same two devices in the opposite iteration order. -/
def overlapDevicesRev : List DeviceEntry :=
  [("device-1", fun _ => true), ("device-0", fun _ => true)]

/-! ### Helper lemmas -/

lemma findExisting_key (hostname : String) (l : List DNSEntry) (e : DNSEntry)
    (h : findExisting hostname l = some e) : e.key = hostname := by
  induction l with
  | nil => simp [findExisting] at h
  | cons a rest ih =>
      by_cases hk : a.key = hostname
      · simp [findExisting, hk] at h
        rw [← h]; exact hk
      · simp [findExisting, hk] at h
        exact ih h

lemma findExisting_of_mem (hostname : String) (l : List DNSEntry) (e : DNSEntry)
    (hmem : e ∈ l) (hkey : e.key = hostname)
    (huniq : (l.map DNSEntry.key).Nodup) :
    findExisting hostname l = some e := by
  induction l with
  | nil => simp at hmem
  | cons a rest ih =>
      simp only [List.map_cons, List.nodup_cons] at huniq
      rcases List.mem_cons.mp hmem with heq | hmem'
      · subst heq
        simp [findExisting, hkey]
      · have hak : a.key ≠ hostname := by
          intro hak
          exact huniq.1 (hak ▸ hkey ▸ List.mem_map_of_mem DNSEntry.key hmem')
        simp [findExisting, hak]
        exact ih hmem' huniq.2

/-- After an update addressed at the id found for `hostname`, the first
entry matching `hostname` carries the new ip. -/
lemma findExisting_after_update (hostname ip : String) (l : List DNSEntry) (e : DNSEntry)
    (hfind : findExisting hostname l = some e) :
    ∃ e', findExisting hostname
        (l.map (fun x => if x.id = e.id then ⟨hostname, ip, x.id⟩ else x)) = some e' ∧
      e'.value = ip := by
  induction l with
  | nil => simp [findExisting] at hfind
  | cons a rest ih =>
      by_cases hk : a.key = hostname
      · have hfind' : some a = some e := by simpa [findExisting, hk] using hfind
        obtain rfl : a = e := Option.some.inj hfind'
        refine ⟨⟨hostname, ip, a.id⟩, ?_, rfl⟩
        simp [findExisting]
      · simp only [findExisting] at hfind
        rw [if_neg hk] at hfind
        by_cases hid : a.id = e.id
        · refine ⟨⟨hostname, ip, a.id⟩, ?_, rfl⟩
          simp [findExisting, hid]
        · rcases ih hfind with ⟨e', he', hv⟩
          refine ⟨e', ?_, hv⟩
          simp [findExisting, hid, hk]
          exact he'

/-- If no entry matches, appending the freshly created record makes it
the first match. -/
lemma findExisting_append_of_none (hostname : String) (l : List DNSEntry) (x : DNSEntry)
    (h : findExisting hostname l = none) :
    findExisting hostname (l ++ [x]) = findExisting hostname [x] := by
  induction l with
  | nil => simp
  | cons a rest ih =>
      by_cases hk : a.key = hostname
      · exfalso
        have hsome : findExisting hostname (a :: rest) = some a := by
          simp [findExisting, hk]
        rw [hsome] at h
        exact Option.some_ne_none a h
      · simp only [findExisting] at h
        rw [if_neg hk] at h
        simp only [List.cons_append, findExisting]
        rw [if_neg hk]
        exact ih h

/-- Whatever the starting state, a second upsert with the same
hostname and ip decides to write nothing. -/
lemma decideUpsert_after_apply (hostname ip freshId : String) (s : List DNSEntry) :
    decideUpsert hostname ip (applyAction freshId s (decideUpsert hostname ip s)) =
      UpsertAction.noop := by
  rcases hfe : findExisting hostname s with _ | e
  · have hds : decideUpsert hostname ip s = UpsertAction.create ⟨hostname, "A", ip, true, none⟩ := by
      simp [decideUpsert, hfe]
    rw [hds]
    simp only [applyAction]
    have := findExisting_append_of_none hostname s ⟨hostname, ip, freshId⟩ hfe
    simp [decideUpsert, this, findExisting]
  · by_cases hv : e.value = ip
    · have hds : decideUpsert hostname ip s = UpsertAction.noop := by
        simp [decideUpsert, hfe, hv]
      rw [hds]
      simp only [applyAction]
      simp [decideUpsert, hfe, hv]
    · have hds : decideUpsert hostname ip s =
          UpsertAction.update e.id ⟨hostname, "A", ip, true, some e.id⟩ := by
        simp [decideUpsert, hfe, hv]
      rw [hds]
      simp only [applyAction]
      rcases findExisting_after_update hostname ip s e hfe with ⟨e', he', hval⟩
      simp [decideUpsert, he', hval]
lemma splitAtChar_append (c : Char) (s t : List Char) (hs : c ∉ s) :
    splitAtChar c (s ++ c :: t) = some (s, t) := by
  induction s with
  | nil => simp [splitAtChar]
  | cons a rest ih =>
      have hac : a ≠ c := by
        intro h
        exact hs (h ▸ List.mem_cons_self a rest)
      have hrest : c ∉ rest := fun h => hs (List.mem_cons_of_mem a h)
      simp [splitAtChar, hac, ih hrest]

lemma tryHostAt_head (d : Char) (s q : List Char) (hds : d ∉ s) (hs : s ≠ []) :
    tryHostAt d ('H' :: 'o' :: 's' :: 't' :: '(' :: d :: (s ++ d :: ')' :: q)) = some s := by
  simp only [tryHostAt, splitAtChar_append d s (')' :: q) hds]
  simp [hs]

lemma tryHostAt_some_get5 (d : Char) (l : List Char) (body : List Char)
    (h : tryHostAt d l = some body) : l.get? 5 = some d := by
  rcases l with _ | ⟨c1, _ | ⟨c2, _ | ⟨c3, _ | ⟨c4, _ | ⟨c5, _ | ⟨c6, rest⟩⟩⟩⟩⟩⟩
  · simp [tryHostAt] at h
  · simp [tryHostAt] at h
  · simp [tryHostAt] at h
  · simp [tryHostAt] at h
  · simp [tryHostAt] at h
  · simp [tryHostAt] at h
  · by_cases hc : c1 = 'H' ∧ c2 = 'o' ∧ c3 = 's' ∧ c4 = 't' ∧ c5 = '(' ∧ c6 = d
    · have h6 : c6 = d := hc.2.2.2.2.2
      subst h6
      rfl
    · simp [tryHostAt, hc] at h

lemma get5_ne_of_no_delim (d : Char) (p rest : List Char)
    (hp : d ∉ p) (hne : p ≠ [])
    (hd : d ∉ ['H', 'o', 's', 't', '(']) :
    ¬ (p ++ ('H' :: 'o' :: 's' :: 't' :: '(' :: d :: rest)).get? 5 = some d := by
  rcases p with _ | ⟨a, _ | ⟨b, _ | ⟨c, _ | ⟨e, _ | ⟨f, _ | ⟨g, p'⟩⟩⟩⟩⟩⟩
  · exact absurd rfl hne
  · intro h
    have hpd : '(' = d := by simpa using h
    subst hpd
    exact hd (by simp)
  · intro h
    have hpd : 't' = d := by simpa using h
    subst hpd
    exact hd (by simp)
  · intro h
    have hpd : 's' = d := by simpa using h
    subst hpd
    exact hd (by simp)
  · intro h
    have hpd : 'o' = d := by simpa using h
    subst hpd
    exact hd (by simp)
  · intro h
    have hpd : 'H' = d := by simpa using h
    subst hpd
    exact hd (by simp)
  · intro h
    have hpd : g = d := by simpa using h
    subst hpd
    exact hp (by simp)

lemma scanHost_append (d : Char) (p s q : List Char)
    (hdp : d ∉ p) (hds : d ∉ s) (hs : s ≠ [])
    (hd : d ∉ ['H', 'o', 's', 't', '(']) :
    scanHost d (p ++ ('H' :: 'o' :: 's' :: 't' :: '(' :: d :: (s ++ d :: ')' :: q))) =
      some s := by
  induction p with
  | nil =>
      simp only [List.nil_append, scanHost]
      rw [tryHostAt_head d s q hds hs]
  | cons a p' ih =>
      have hdp' : d ∉ p' := fun h => hdp (List.mem_cons_of_mem a h)
      simp only [List.cons_append, scanHost, List.append_eq]
      have hnone :
          tryHostAt d (a :: (p' ++ ('H' :: 'o' :: 's' :: 't' :: '(' :: d ::
            (s ++ d :: ')' :: q)))) = none := by
        rcases htry : tryHostAt d (a :: (p' ++ ('H' :: 'o' :: 's' :: 't' :: '(' :: d ::
            (s ++ d :: ')' :: q)))) with _ | body
        · rfl
        · exfalso
          have h5 := tryHostAt_some_get5 d _ _ htry
          rw [← List.cons_append] at h5
          exact get5_ne_of_no_delim d (a :: p') _ hdp (by simp) hd h5
      rw [hnone]
      exact ih hdp'

lemma leadMatch_iff (needle : List Char) :
    ∀ hay : List Char, leadMatch needle hay = true ↔ ∃ t, hay = needle ++ t := by
  induction needle with
  | nil => intro hay; simp [leadMatch]
  | cons a as ih =>
      intro hay
      rcases hay with _ | ⟨b, bs⟩
      · simp [leadMatch]
      · constructor
        · intro h
          simp only [leadMatch] at h
          rcases (Bool.and_eq_true _ _).mp h with ⟨ha, hrest⟩
          have h1 : a = b := of_decide_eq_true ha
          subst h1
          rcases (ih bs).mp hrest with ⟨t, ht⟩
          subst ht
          exact ⟨t, by simp⟩
        · rintro ⟨t, ht⟩
          rw [List.cons_append] at ht
          injection ht with h1 h2
          simp only [leadMatch]
          apply (Bool.and_eq_true _ _).mpr
          exact ⟨decide_eq_true h1.symm, (ih bs).mpr ⟨t, h2⟩⟩

lemma containsSub_iff : ∀ hay needle : List Char,
    containsSub hay needle = true ↔ ∃ p t, hay = p ++ needle ++ t := by
  intro hay
  induction hay with
  | nil =>
      intro needle
      rw [show containsSub [] needle = leadMatch needle [] from rfl, leadMatch_iff]
      constructor
      · rintro ⟨t, ht⟩
        rcases List.append_eq_nil.mp ht.symm with ⟨h1, h2⟩
        exact ⟨[], [], by simp [h1, h2]⟩
      · rintro ⟨p, t, ht⟩
        rcases List.append_eq_nil.mp ht.symm with ⟨h1, h2⟩
        rcases List.append_eq_nil.mp h1 with ⟨h3, h4⟩
        exact ⟨[], by simp [h4]⟩
  | cons c rest ih =>
      intro needle
      simp only [containsSub, Bool.or_eq_true, leadMatch_iff needle, ih]
      constructor
      · rintro (⟨t, ht⟩ | ⟨p, t, ht⟩)
        · exact ⟨[], t, by simpa using ht⟩
        · exact ⟨c :: p, t, by simp [ht]⟩
      · rintro ⟨p, t, ht⟩
        rcases p with _ | ⟨c', p'⟩
        · left
          exact ⟨t, by simpa using ht⟩
        · right
          rw [List.cons_append] at ht
          injection ht with h1 h2
          exact ⟨p', t, h2⟩

lemma findMatchingClient_unique (host : String) (e0 : DeviceEntry)
    (l : List DeviceEntry) (hl : ∀ e ∈ l, e.2 host = true → e = e0) :
    (findMatchingClient l host = some e0.1 ∧ e0 ∈ l ∧ e0.2 host = true) ∨
    (findMatchingClient l host = none ∧ (e0 ∈ l → e0.2 host = false)) := by
  induction l with
  | nil =>
      right
      exact ⟨rfl, fun h => absurd h (List.not_mem_nil e0)⟩
  | cons a rest ih =>
      obtain ⟨cid, pat⟩ := a
      by_cases hm : pat host = true
      · left
        have ha : (cid, pat) = e0 := hl (cid, pat) (List.mem_cons_self _ _) hm
        refine ⟨?_, ha ▸ List.mem_cons_self _ _, by rw [← ha]; exact hm⟩
        rw [← ha]
        simp [findMatchingClient, hm]
      · have hrest : ∀ e ∈ rest, e.2 host = true → e = e0 :=
          fun e he hme => hl e (List.mem_cons_of_mem _ he) hme
        have hstep : findMatchingClient ((cid, pat) :: rest) host =
            findMatchingClient rest host := by
          simp [findMatchingClient, hm]
        rcases ih hrest with ⟨hf, hmem, hmt⟩ | ⟨hf, himp⟩
        · left
          exact ⟨by rw [hstep]; exact hf, List.mem_cons_of_mem _ hmem, hmt⟩
        · right
          refine ⟨by rw [hstep]; exact hf, ?_⟩
          intro hmem
          rcases List.mem_cons.mp hmem with heq | hmem'
          · rw [heq]
            simpa using hm
          · exact himp hmem'

lemma getLocalIP_all_bad (addrs : List Addr) (h : ∀ b ∈ addrs, usableAddr b = false) :
    getLocalIP addrs = Except.error "no suitable IP address found" := by
  induction addrs with
  | nil => rfl
  | cons a rest ih =>
      have ha := h a (List.mem_cons_self _ _)
      have hrest : ∀ b ∈ rest, usableAddr b = false :=
        fun b hb => h b (List.mem_cons_of_mem _ hb)
      simp [getLocalIP, ha, ih hrest]

lemma buildDevices_ok_iff (compile : String → Option (String → Bool)) :
    ∀ (ds : List UnifiDeviceConfig) (i : Nat),
      (∃ l, buildDevices compile ds i = Except.ok l) ↔
        ∀ d ∈ ds, d.pattern ≠ "" ∧ compile d.pattern ≠ none := by
  intro ds
  induction ds with
  | nil => intro i; simp [buildDevices]
  | cons d rest ih =>
      intro i
      by_cases hp : d.pattern = ""
      · constructor
        · rintro ⟨l, hl⟩
          simp [buildDevices, hp] at hl
        · intro hall
          exact absurd hp (hall d (List.mem_cons_self _ _)).1
      · rcases hc : compile d.pattern with _ | re
        · constructor
          · rintro ⟨l, hl⟩
            simp [buildDevices, hp, hc] at hl
          · intro hall
            exact absurd hc (hall d (List.mem_cons_self _ _)).2
        · rcases hb : buildDevices compile rest (i + 1) with e | l
          · constructor
            · rintro ⟨l', hl'⟩
              simp [buildDevices, hp, hc, hb] at hl'
            · intro hall
              rcases (ih (i + 1)).mpr
                  (fun d' hd' => hall d' (List.mem_cons_of_mem _ hd')) with ⟨l, hl⟩
              rw [hb] at hl
              exact absurd hl (by simp)
          · constructor
            · intro _
              intro d' hd'
              rcases List.mem_cons.mp hd' with heq | hd''
              · subst heq
                exact ⟨hp, by simp [hc]⟩
              · exact (ih (i + 1)).mp ⟨l, hb⟩ d' hd''
            · intro _
              refine ⟨("device-" ++ toString i, re) :: l, ?_⟩
              simp [buildDevices, hp, hc, hb]

/-! ### Theorems for the upsert claims -/

/-- C1: when the device state contains a record for the target hostname
whose IP already equals the target IP (hostnames unique, as on a real
device), `updateDNSRecord`'s decision is a no-op that issues zero write
calls and succeeds; and after any first upsert has been applied to the
device, the second upsert with the same (hostname, ip) always decides
to write nothing, so two calls in a row issue at most the first call's
single write. -/
theorem upsert_idempotent_noop (hostname ip : String) (s : List DNSEntry) (e : DNSEntry)
    (hmem : e ∈ s) (hkey : e.key = hostname) (hval : e.value = ip)
    (huniq : (s.map DNSEntry.key).Nodup) :
    decideUpsert hostname ip s = UpsertAction.noop ∧
    writeCount (decideUpsert hostname ip s) = 0 ∧
    (∀ t freshId, decideUpsert hostname ip
        (applyAction freshId t (decideUpsert hostname ip t)) = UpsertAction.noop) := by
  have hfe := findExisting_of_mem hostname s e hmem hkey huniq
  have h1 : decideUpsert hostname ip s = UpsertAction.noop := by
    simp [decideUpsert, hfe, hval]
  exact ⟨h1, by rw [h1]; rfl,
    fun t freshId => decideUpsert_after_apply hostname ip freshId t⟩

theorem upsert_idempotent_noop_witness :
    decideUpsert "example.com" "10.0.0.5"
        [⟨"example.com", "10.0.0.5", "abc"⟩] = UpsertAction.noop ∧
    writeCount (decideUpsert "example.com" "10.0.0.5"
        [⟨"example.com", "10.0.0.5", "abc"⟩]) = 0 := by
  have h := upsert_idempotent_noop "example.com" "10.0.0.5"
      [⟨"example.com", "10.0.0.5", "abc"⟩] ⟨"example.com", "10.0.0.5", "abc"⟩
      (by simp) rfl rfl (by simp)
  exact ⟨h.1, h.2.1⟩

/-- C4: when the device state contains a record for the target hostname
with a different IP (hostnames unique), the decision is exactly one
update addressed by that record's opaque id — zero creates — and the
payload carries the new IP, the record's own hostname, and the enabled
flag set. -/
theorem upsert_update_in_place (hostname ip : String) (s : List DNSEntry) (e : DNSEntry)
    (hmem : e ∈ s) (hkey : e.key = hostname) (hval : e.value ≠ ip)
    (huniq : (s.map DNSEntry.key).Nodup) :
    decideUpsert hostname ip s =
      UpsertAction.update e.id ⟨e.key, "A", ip, true, some e.id⟩ ∧
    updateCount (decideUpsert hostname ip s) = 1 ∧
    createCount (decideUpsert hostname ip s) = 0 := by
  have hfe := findExisting_of_mem hostname s e hmem hkey huniq
  have h1 : decideUpsert hostname ip s =
      UpsertAction.update e.id ⟨e.key, "A", ip, true, some e.id⟩ := by
    simp [decideUpsert, hfe, hval, hkey]
  exact ⟨h1, by rw [h1]; rfl, by rw [h1]; rfl⟩

theorem upsert_update_in_place_witness :
    decideUpsert "test.com" "10.0.0.6" [⟨"test.com", "10.0.0.5", "abc"⟩] =
      UpsertAction.update "abc" ⟨"test.com", "A", "10.0.0.6", true, some "abc"⟩ ∧
    createCount (decideUpsert "test.com" "10.0.0.6"
        [⟨"test.com", "10.0.0.5", "abc"⟩]) = 0 := by
  have h := upsert_update_in_place "test.com" "10.0.0.6"
      [⟨"test.com", "10.0.0.5", "abc"⟩] ⟨"test.com", "10.0.0.5", "abc"⟩
      (by simp) rfl (by decide) (by simp)
  exact ⟨h.1, h.2.2⟩

/-- C5: `extractHostname` tries the backtick, single-quote and
double-quote delimiter styles in that fixed order and returns the
whitespace-trimmed literal of the first style that matches; when no
style matches — unsupported or mixed delimiters, an empty rule, or no
`Host` predicate at all — it returns the empty string; and the
predicate is found at any position of the rule, not only at its
start. -/
theorem extractHostname_spec :
    (∀ rule body, scanHost bq rule.data = some body →
        extractHostname rule = String.mk (trimSpace body)) ∧
    (∀ rule body, scanHost bq rule.data = none → scanHost sq rule.data = some body →
        extractHostname rule = String.mk (trimSpace body)) ∧
    (∀ rule body, scanHost bq rule.data = none → scanHost sq rule.data = none →
        scanHost dq rule.data = some body →
        extractHostname rule = String.mk (trimSpace body)) ∧
    (∀ rule, scanHost bq rule.data = none → scanHost sq rule.data = none →
        scanHost dq rule.data = none → extractHostname rule = "") ∧
    extractHostname "" = "" ∧
    (∀ p s q : List Char, bq ∉ p → bq ∉ s → s ≠ [] →
        extractHostname (String.mk
            (p ++ ('H' :: 'o' :: 's' :: 't' :: '(' :: bq :: (s ++ bq :: ')' :: q)))) =
          String.mk (trimSpace s)) ∧
    extractHostname (String.mk ("Host(".data ++ bq :: ("example.com".data ++ [sq, ')']))) =
      "" := by
  refine ⟨?_, ?_, ?_, ?_, rfl, ?_, by rfl⟩
  · intro rule body h
    simp [extractHostname, h]
  · intro rule body h1 h2
    simp [extractHostname, h1, h2]
  · intro rule body h1 h2 h3
    simp [extractHostname, h1, h2, h3]
  · intro rule h1 h2 h3
    simp [extractHostname, h1, h2, h3]
  · intro p s q hp hs hne
    have h := scanHost_append bq p s q hp hs hne (by decide)
    have hdata : (String.mk
        (p ++ ('H' :: 'o' :: 's' :: 't' :: '(' :: bq :: (s ++ bq :: ')' :: q)))).data =
        p ++ ('H' :: 'o' :: 's' :: 't' :: '(' :: bq :: (s ++ bq :: ')' :: q)) := rfl
    simp [extractHostname, hdata, h]

theorem extractHostname_spec_witness :
    extractHostname (String.mk ("PathPrefix(/x) && ".data ++
        ('H' :: 'o' :: 's' :: 't' :: '(' :: bq ::
          (" example.com ".data ++ bq :: ')' :: " && other".data)))) =
      "example.com" := by
  have h := extractHostname_spec.2.2.2.2.2.1 "PathPrefix(/x) && ".data
      " example.com ".data " && other".data (by decide) (by decide) (by decide)
  rw [h]
  rfl

/-- C2 counterexample: with a stale token `"tok"` and a device that
answers the list request with 401 (while a fresh login would succeed),
`GetStaticDNSEntries` returns an error after exactly one list request —
the token is not cleared and no login/retry is issued, refuting the
claimed downgrade-and-retry-once behavior. -/
theorem session_401_counterexample :
    getStaticDNSEntries staleTokenOracle "tok" =
      ("tok", [ApiRequest.listDNS], Except.error "failed to get DNS entries") ∧
    ApiRequest.loginReq ∉ [ApiRequest.listDNS] := by
  exact ⟨rfl, by decide⟩

/-- C2 amended: a 401-class (non-success) response on an authenticated
request makes the operation fail immediately with an error: the stored
token is kept, the request is not retried, and no login is issued; the
same holds for the single write request of `updateDNSRecord`.  A login
happens only lazily when the stored token is empty. -/
theorem session_401_error_no_retry (o : Oracle) (tok hostname ip : String)
    (htok : tok ≠ "") :
    ((o ApiRequest.listDNS).status ≠ 200 →
      getStaticDNSEntries o tok =
        (tok, [ApiRequest.listDNS], Except.error "failed to get DNS entries")) ∧
    (∀ e, (o ApiRequest.listDNS).status = 200 →
      findExisting hostname (o ApiRequest.listDNS).entries = some e → e.value ≠ ip →
      (o (ApiRequest.putDNS e.id ⟨hostname, "A", ip, true, some e.id⟩)).status ≠ 200 →
      updateDNSRecord o tok hostname ip =
        (tok, [ApiRequest.listDNS,
               ApiRequest.putDNS e.id ⟨hostname, "A", ip, true, some e.id⟩],
          Except.error "DNS operation failed")) := by
  constructor
  · intro hst
    simp [getStaticDNSEntries, ensureAuth, htok, hst]
  · intro e hst hfind hval hwr
    simp [updateDNSRecord, getStaticDNSEntries, ensureAuth, sendWrite,
      htok, hst, hfind, hval, hwr]

theorem session_401_error_no_retry_witness :
    getStaticDNSEntries staleTokenOracle "stale" =
      ("stale", [ApiRequest.listDNS], Except.error "failed to get DNS entries") := by
  exact (session_401_error_no_retry staleTokenOracle "stale" "h" "ip"
    (by decide)).1 (by decide)

/-- C3 counterexample: two devices whose patterns both match the same
hostname, presented in the two iteration orders the Go map range may
produce for the very same configuration, yield different winners — the
resolved device is not a function of the static configuration alone. -/
theorem findMatchingClient_order_dependent :
    overlapDevices.Perm overlapDevicesRev ∧
    findMatchingClient overlapDevices "app.example.com" = some "device-0" ∧
    findMatchingClient overlapDevicesRev "app.example.com" = some "device-1" ∧
    ("device-0" : String) ≠ "device-1" := by
  refine ⟨?_, rfl, rfl, by decide⟩
  simp only [overlapDevices, overlapDevicesRev]
  exact List.Perm.swap _ _ _

/-- C3 amended: resolution is deterministic whenever at most one
configured device pattern matches the hostname — then every iteration
order of the same map contents returns the same winner; under
overlapping patterns the winner depends on the unspecified map
iteration order. -/
theorem findMatchingClient_deterministic (host : String) (e0 : DeviceEntry)
    (l1 l2 : List DeviceEntry) (hperm : l1.Perm l2)
    (hl : ∀ e ∈ l1, e.2 host = true → e = e0) :
    findMatchingClient l1 host = findMatchingClient l2 host := by
  have hl2 : ∀ e ∈ l2, e.2 host = true → e = e0 :=
    fun e he hme => hl e (hperm.mem_iff.mpr he) hme
  rcases findMatchingClient_unique host e0 l1 hl with ⟨hf1, hm1, ht1⟩ | ⟨hf1, hi1⟩ <;>
    rcases findMatchingClient_unique host e0 l2 hl2 with ⟨hf2, hm2, ht2⟩ | ⟨hf2, hi2⟩
  · rw [hf1, hf2]
  · rw [hi2 (hperm.mem_iff.mp hm1)] at ht1
    simp at ht1
  · rw [hi1 (hperm.mem_iff.mpr hm2)] at ht2
    simp at ht2
  · rw [hf1, hf2]

theorem findMatchingClient_deterministic_witness :
    findMatchingClient ([("device-0", fun _ => true), ("device-1", fun _ => false)] :
        List DeviceEntry) "a" =
      findMatchingClient ([("device-1", fun _ => false), ("device-0", fun _ => true)] :
        List DeviceEntry) "a" := by
  refine findMatchingClient_deterministic "a" ("device-0", fun _ => true) _ _
    (List.Perm.swap _ _ _) ?_
  intro e he hme
  rcases List.mem_cons.mp he with heq | he'
  · exact heq
  · rcases List.mem_cons.mp he' with heq' | he''
    · rw [heq'] at hme
      simp at hme
    · simp at he''

/-- C6: a reconciliation pass returns success exactly when both the
local address lookup and the router fetch succeed — and in that case
every route of the list yields exactly one outcome, in order,
regardless of per-route skips or upsert failures; per-route failures
never abort the batch. -/
theorem updateDNS_batch_isolation (devs : List DeviceEntry)
    (upsertOk : String → String → String → Bool) (addrs : List Addr)
    (routersRes : Except String (List TraefikRouter)) :
    ((updateDNS devs upsertOk addrs routersRes).1 = Except.ok () ↔
      (∃ ip, getLocalIP addrs = Except.ok ip) ∧ ∃ rs, routersRes = Except.ok rs) ∧
    (∀ ip rs, getLocalIP addrs = Except.ok ip → routersRes = Except.ok rs →
      (updateDNS devs upsertOk addrs routersRes).2 =
        rs.map (processRoute devs upsertOk ip)) := by
  constructor
  · rcases routersRes with e | rs
    · rcases hip : getLocalIP addrs with eip | ip
      · simp [updateDNS, hip]
      · simp [updateDNS, hip]
    · rcases hip : getLocalIP addrs with eip | ip
      · simp [updateDNS, hip]
      · simp [updateDNS, hip]
  · intro ip rs hok hrr
    subst hrr
    simp [updateDNS, hok]

theorem updateDNS_batch_isolation_witness :
    (updateDNS ([] : List DeviceEntry) (fun _ _ _ => false)
        [⟨true, false, true, "10.0.0.2"⟩]
        (Except.ok [⟨"Host(x)", [], "", ""⟩, ⟨"", [], "", ""⟩])).2 =
      [⟨"Host(x)", [], "", ""⟩, ⟨"", [], "", ""⟩].map
        (processRoute ([] : List DeviceEntry) (fun _ _ _ => false) "10.0.0.2") := by
  exact (updateDNS_batch_isolation ([] : List DeviceEntry) (fun _ _ _ => false)
    [⟨true, false, true, "10.0.0.2"⟩]
    (Except.ok [⟨"Host(x)", [], "", ""⟩, ⟨"", [], "", ""⟩])).2 "10.0.0.2" _ rfl rfl

/-- C7: `getLocalIP` returns the first interface address that is a
non-loopback IPv4 network address; when no address qualifies it returns
the descriptive error, the whole pass fails immediately, and no route
is processed (no device is contacted). -/
theorem getLocalIP_first_ipv4 :
    (∀ (pre : List Addr) (a : Addr) (post : List Addr),
        (∀ b ∈ pre, usableAddr b = false) → usableAddr a = true →
        getLocalIP (pre ++ a :: post) = Except.ok a.rendered) ∧
    (∀ addrs : List Addr, (∀ b ∈ addrs, usableAddr b = false) →
        getLocalIP addrs = Except.error "no suitable IP address found") ∧
    (∀ (devs : List DeviceEntry) (upsertOk : String → String → String → Bool)
        (addrs : List Addr) (routersRes : Except String (List TraefikRouter)),
        (∀ b ∈ addrs, usableAddr b = false) →
        updateDNS devs upsertOk addrs routersRes =
          (Except.error ("failed to get local IP: " ++ "no suitable IP address found"),
            [])) := by
  refine ⟨?_, getLocalIP_all_bad, ?_⟩
  · intro pre
    induction pre with
    | nil =>
        intro a post _ ha
        simp [getLocalIP, ha]
    | cons b pre' ih =>
        intro a post hpre ha
        have hb := hpre b (List.mem_cons_self _ _)
        have hpre' : ∀ c ∈ pre', usableAddr c = false :=
          fun c hc => hpre c (List.mem_cons_of_mem _ hc)
        simp [getLocalIP, hb]
        exact ih a post hpre' ha
  · intro devs upsertOk addrs routersRes hbad
    simp [updateDNS, getLocalIP_all_bad addrs hbad]

theorem getLocalIP_first_ipv4_witness :
    getLocalIP [⟨true, true, true, "127.0.0.1"⟩, ⟨true, false, false, "fe80--1"⟩,
        ⟨true, false, true, "192.168.1.7"⟩] = Except.ok "192.168.1.7" := by
  have h := getLocalIP_first_ipv4.1
      [⟨true, true, true, "127.0.0.1"⟩, ⟨true, false, false, "fe80--1"⟩]
      ⟨true, false, true, "192.168.1.7"⟩ [] (by decide) (by decide)
  simpa using h

/-- C8: `New` fails — and the plugin refuses to start — exactly when
the update-interval string does not parse, or some device has an empty
pattern, or some device's pattern does not compile; validation is never
deferred to resolve time (the outcome does not depend on the pass
inputs). -/
theorem New_error_iff (parseDuration : String → Option Nat)
    (compile : String → Option (String → Bool)) (cfg : Config)
    (upsertOk : String → String → String → Bool) (addrs : List Addr)
    (routersRes : Except String (List TraefikRouter)) :
    (∃ e, New parseDuration compile cfg upsertOk addrs routersRes = Except.error e) ↔
      parseDuration cfg.updateInterval = none ∨
        ∃ d ∈ cfg.devices, d.pattern = "" ∨ compile d.pattern = none := by
  rcases hpd : parseDuration cfg.updateInterval with _ | n
  · constructor
    · intro _
      exact Or.inl rfl
    · intro _
      exact ⟨"invalid update interval", by simp [New, hpd]⟩
  · rcases hbd : buildDevices compile cfg.devices 0 with e | devs
    · constructor
      · intro _
        right
        by_contra hno
        push_neg at hno
        rcases (buildDevices_ok_iff compile cfg.devices 0).mpr hno with ⟨l, hl⟩
        rw [hbd] at hl
        exact absurd hl (by simp)
      · intro _
        exact ⟨e, by simp [New, hpd, hbd]⟩
    · constructor
      · rintro ⟨e', he'⟩
        exfalso
        rcases hud : (updateDNS devs upsertOk addrs routersRes).1 with eu | u
        · simp [New, hpd, hbd, hud] at he'
        · simp [New, hpd, hbd, hud] at he'
      · intro hbad
        exfalso
        have hall := (buildDevices_ok_iff compile cfg.devices 0).mp ⟨devs, hbd⟩
        rcases hbad with h1 | ⟨d, hd, h2 | h3⟩
        · exact absurd h1 (by simp)
        · exact absurd h2 (hall d hd).1
        · exact absurd h3 (hall d hd).2

theorem New_error_iff_witness :
    ∃ e, New (fun _ => none) (fun _ => some (fun _ => true))
        ⟨[], "not-a-duration", "http://localhost:8080", false⟩
        (fun _ _ _ => true) [] (Except.ok []) = Except.error e := by
  exact (New_error_iff (fun _ => none) (fun _ => some (fun _ => true))
    ⟨[], "not-a-duration", "http://localhost:8080", false⟩
    (fun _ _ _ => true) [] (Except.ok [])).mpr (Or.inl rfl)

/-- C9: the filtering stage of `GetRouters` keeps a route exactly when
some middleware name contains the marker `"traefikunifidns"` as a
substring (characterized as: the marker occurs between two arbitrary
character lists), not by string equality — so a middleware such as
`"my-traefikunifidns@docker"` also opts the route in. -/
theorem getRouters_marker_filter :
    (∀ (rs : List TraefikRouter) (r : TraefikRouter),
        r ∈ filterRouters rs ↔
          r ∈ rs ∧ ∃ m ∈ r.middlewares, stringContains m "traefikunifidns" = true) ∧
    (∀ m marker : String, stringContains m marker = true ↔
        ∃ p t, m.data = p ++ marker.data ++ t) ∧
    stringContains "my-traefikunifidns@docker" "traefikunifidns" = true ∧
    ¬ ("my-traefikunifidns@docker" = "traefikunifidns") ∧
    routerHasMarker ⟨"Host(x)", ["my-traefikunifidns@docker"], "", ""⟩ = true := by
  refine ⟨?_, ?_, by decide, by decide, by decide⟩
  · intro rs r
    simp [filterRouters, routerHasMarker, List.mem_filter, List.any_eq_true]
  · intro m marker
    exact containsSub_iff m.data marker.data

theorem getRouters_marker_filter_witness :
    (⟨"Host(x)", ["my-traefikunifidns@docker"], "", ""⟩ : TraefikRouter) ∈
      filterRouters [⟨"Host(x)", ["my-traefikunifidns@docker"], "", ""⟩,
        ⟨"Host(y)", ["auth"], "", ""⟩] := by
  exact (getRouters_marker_filter.1 _ _).mpr
    ⟨List.mem_cons_self _ _, "my-traefikunifidns@docker", List.mem_cons_self _ _,
      by decide⟩

/-- C10: for every configuration that passes construction-time
validation, `New` returns the handler with a nil error even when the
initial synchronous pass fails; the initial pass's error is only
recorded as a logged message, never propagated to the caller. -/
theorem New_ok_despite_initial_failure (parseDuration : String → Option Nat)
    (compile : String → Option (String → Bool)) (cfg : Config)
    (upsertOk : String → String → String → Bool) (addrs : List Addr)
    (routersRes : Except String (List TraefikRouter))
    (hpd : parseDuration cfg.updateInterval ≠ none)
    (hdev : ∀ d ∈ cfg.devices, d.pattern ≠ "" ∧ compile d.pattern ≠ none) :
    ∃ devs,
      (∀ e, (updateDNS devs upsertOk addrs routersRes).1 = Except.error e →
        New parseDuration compile cfg upsertOk addrs routersRes =
          Except.ok (devs, some e)) ∧
      ((updateDNS devs upsertOk addrs routersRes).1 = Except.ok () →
        New parseDuration compile cfg upsertOk addrs routersRes =
          Except.ok (devs, none)) := by
  rcases hpd' : parseDuration cfg.updateInterval with _ | n
  · exact absurd hpd' hpd
  · rcases (buildDevices_ok_iff compile cfg.devices 0).mpr hdev with ⟨devs, hbd⟩
    refine ⟨devs, ?_, ?_⟩
    · intro e hud
      simp [New, hpd', hbd, hud]
    · intro hud
      simp [New, hpd', hbd, hud]

theorem New_ok_despite_initial_failure_witness :
    ∃ devs, New (fun _ => some 300) (fun _ => some (fun _ => true))
        ⟨[⟨"192.168.1.1", "admin", "secret", "host-pattern", false⟩], "5m",
          "http://localhost:8080", false⟩
        (fun _ _ _ => true) [⟨true, false, true, "10.0.0.2"⟩]
        (Except.error "connection refused") =
      Except.ok (devs, some ("failed to get Traefik routers: " ++
        "connection refused")) := by
  rcases New_ok_despite_initial_failure (fun _ => some 300)
      (fun _ => some (fun _ => true))
      ⟨[⟨"192.168.1.1", "admin", "secret", "host-pattern", false⟩], "5m",
        "http://localhost:8080", false⟩
      (fun _ _ _ => true) [⟨true, false, true, "10.0.0.2"⟩]
      (Except.error "connection refused") (by simp)
      (by intro d hd; simp at hd; subst hd; exact ⟨by decide, by simp⟩) with
    ⟨devs, h1, _⟩
  exact ⟨devs, h1 _ rfl⟩

end TraefikUnifiDNS
